import Mathlib

/-!
Verification of the shadie chromosome/reproduction/serialization core against
its specification. Python sources are shallowly embedded: pandas data frames
become lists of rows keyed by the pandas index, `numpy` random draws become
oracle functions supplied as arguments, and raised Python exceptions become
`Except.error` values.
-/

/-- Modelled from the spec: `MutationEffectType` (shadie/base/mutations.py is
not under src/). Identity-unique record with a symbolic name and ploidy-stage
applicability flags. The `uid` field models Python object identity; effect
distribution parameters are omitted because no claim mentions them. -/
structure MutationType where
  uid : Nat
  name : String
  affects_haploid : Bool := true
  affects_diploid : Bool := true
deriving Repr, DecidableEq

/-- Modelled from the spec: `ElementType` (shadie/base/elements.py is not under
src/). Identity-unique record with symbolic names (`name` such as "g1", and an
`altname`), an ordered list of mutation-effect types `mlist`, and an
`is_coding` flag. Relative weights are omitted because no claim mentions them. -/
structure ElementType where
  uid : Nat
  name : String
  altname : String
  mlist : List MutationType
  is_coding : Bool
deriving Repr, DecidableEq

/-- Modelled from the spec: the default neutral mutation type from
shadie/base/defaults.py (not under src/). -/
def NEUT : MutationType := { uid := 0, name := "m1" }

/-- Modelled from the spec: the default deleterious mutation type from
shadie/base/defaults.py (not under src/). -/
def DEL : MutationType := { uid := 1, name := "m2" }

/-- Modelled from the spec: the default beneficial mutation type from
shadie/base/defaults.py (not under src/). -/
def BEN : MutationType := { uid := 2, name := "m3" }

/-- Modelled from the spec: the default non-coding element type from
shadie/base/defaults.py (not under src/). -/
def NONCDS : ElementType :=
  { uid := 0, name := "g1", altname := "noncds", mlist := [NEUT], is_coding := false }

/-- Modelled from the spec: the default exon element type from
shadie/base/defaults.py (not under src/). -/
def EXON : ElementType :=
  { uid := 1, name := "g2", altname := "exon", mlist := [DEL, BEN], is_coding := true }

/-- Modelled from the spec: the default intron element type from
shadie/base/defaults.py (not under src/). -/
def INTRON : ElementType :=
  { uid := 2, name := "g3", altname := "intron", mlist := [DEL], is_coding := true }

/-- One row of the chromosome `data` frame. `key` is the pandas index value;
the remaining fields are the columns name, start, end, eltype, script, coding
assigned in `ChromosomeRandom.run` and `ChromosomeExplicit.__init__` (the
column named end in the source is called `stop` here because `end` is a Lean
keyword). The `name` column holds the element altname, the `eltype` column the
element name, and `script` the `ElementType` object itself. -/
structure Row where
  key : Int
  name : String
  start : Int
  stop : Int
  eltype : String
  script : ElementType
  coding : Bool
deriving Repr, DecidableEq

/-- Builds the row tuple written by the chromosome constructors:
`(eltype.altname, start, end, eltype.name, eltype, eltype.is_coding)` at pandas
index `key`. -/
def mkRow (key : Int) (e : ElementType) (start stop : Int) : Row :=
  { key := key, name := e.altname, start := start, stop := stop
  , eltype := e.name, script := e, coding := e.is_coding }

/-- Replacement step of a pandas `loc` assignment: a row whose index equals the
written row index is replaced by the written row. -/
def replaceRow (row r : Row) : Row := if r.key == row.key then row else r

/-- pandas assignment `df.loc[key] = row`: replace the row(s) whose index equals
`row.key` when one exists, otherwise append a new row with that index. -/
def locSet (data : List Row) (row : Row) : List Row :=
  if data.any (fun r => r.key == row.key) then data.map (replaceRow row)
  else data ++ [row]

/-- The mutation-name collection loop shared by the chromosome constructors in
shadie/chromosome/build.py: for each element, for each mutation in its mlist,
`if mutation.name not in mutations: mutations.append(mutation.name)`. Note it
collects and deduplicates names, not mutation-type objects. -/
def collectMutationNames (elements : List ElementType) : List String :=
  elements.foldl
    (fun acc e =>
      e.mlist.foldl (fun acc2 m => if m.name ∈ acc2 then acc2 else acc2 ++ [m.name]) acc)
    []

/-- First-seen deduplication written from the spec's words ("deduplicated
union ... in first-seen order"): keep the first occurrence of each value and
drop its later duplicates. Used to compare the source's collection loop
against the specified behaviour. -/
def firstSeenDedup : List String → List String
  | [] => []
  | n :: rest => n :: (firstSeenDedup rest).filter (fun x => x != n)

/-- An entry of the dict argument of `ChromosomeExplicit.__init__`: a
(start, end) key mapped to an `ElementType` or None; the list order is the
dict insertion order. -/
abbrev Entry := (Int × Int) × Option ElementType

/-- Python `sorted(data, key=lambda x: x[0])` on the dict keys: a stable sort
by interval start, realised by insertion placing each element before the first
element whose start is not smaller. -/
def insertByStart (e : Entry) : List Entry → List Entry
  | [] => [e]
  | x :: xs => if e.1.1 ≤ x.1.1 then e :: x :: xs else x :: insertByStart e xs

/-- Stable sort of dict entries by interval start (Python `sorted` with key
`x[0]`). -/
def sortByStart (l : List Entry) : List Entry := l.foldr insertByStart []

/-- The data-entry loop of `ChromosomeExplicit.__init__`: iterate the sorted
entries; a None value emits no row; otherwise `data.loc[start] = (...)`. -/
def foldData (acc : List Row) (l : List Entry) : List Row :=
  l.foldl
    (fun d e =>
      match e.2 with
      | none => d
      | some t => locSet d (mkRow e.1.1 t e.1.1 e.1.2))
    acc

/-- The read-only result of a chromosome construction: genome size, the data
frame rows, and the collected `mutations` name list. -/
structure ChromosomeModel where
  genome_size : Int
  data : List Row
  mutations : List String
deriving Repr, DecidableEq

/-- `ChromosomeExplicit.__init__` from shadie/chromosome/build.py (the variant
that also fills `self.mutations`; the interval-entry loop is identical in
shadie/chromosome/src/classes.py). `genome_size` is `max(end + 1)` over the
dict keys. `Except.error` models the Python exceptions that can be raised:
`max()` on an empty dict, and the AttributeError from `element.mlist` when a
dict value is None (build.py iterates `data.values()` with no None guard). The
type assertions on keys and values always pass in this typed embedding. -/
def ChromosomeExplicit (entries : List Entry) : Except String ChromosomeModel :=
  if entries.isEmpty then Except.error "max() arg is an empty sequence"
  else
    let gsize : Int :=
      (entries.map (fun q => q.1.2 + 1)).foldl max
        ((entries.headD (((0 : Int), (0 : Int)), none)).1.2 + 1)
    if entries.any (fun q => q.2.isNone) then
      Except.error "AttributeError: NoneType object has no attribute mlist"
    else
      Except.ok
        { genome_size := gsize
        , data := foldData [] (sortByStart entries)
        , mutations := collectMutationNames (entries.filterMap (fun q => q.2)) }

/-- The fixed five-segment default chromosome data of `Chromosome.__init__`
in shadie/chromosome/src/classes.py (genome size 10001). -/
def defaultChromosomeData : List Row :=
  [ mkRow 0 NONCDS 0 2000
  , mkRow 2001 EXON 2001 4000
  , mkRow 4001 INTRON 4001 6000
  , mkRow 6001 EXON 6001 8000
  , mkRow 8001 NONCDS 8001 10000 ]

/-- The no-overlap relation of the interval invariant: intervals `a` and `b`
are disjoint when one ends strictly before the other starts. -/
def NoOverlap (a b : Row) : Prop := a.stop < b.start ∨ b.stop < a.start

/-- An exon or intron argument of `ChromosomeRandom.__init__` in
shadie/chromosome/src/classes.py: either a single `ElementType` or a list from
which `rng.choice` picks one at each use (the `isinstance(..., list)` branch in
`ChromosomeRandom.run`). -/
inductive Pool where
  | one : ElementType → Pool
  | many : List ElementType → Pool
deriving Repr, DecidableEq

/-- `rng.choice` over a pool, with the chosen position supplied by the random
oracle; the single-element case ignores the draw. A choice from an empty list
(which raises in numpy) is given the default exon type to keep the function
total. -/
def Pool.pick : Pool → Nat → ElementType
  | Pool.one e, _ => e
  | Pool.many es, i => es.getD (i % es.length) EXON

/-- The random oracle for `ChromosomeRandom`: one function per kind of draw the
source performs, indexed by the loop round `r` (and attempt or segment number
where needed). `noncdsDraw r` is `int(rng.exponential(noncds_scale))`,
`cdsDraw r` is `int(rng.exponential(...))`, `nIntronsDraw r` is
`int(rng.poisson(...))`, `candDraw r t` is the integer-scaled Dirichlet vector
`(rng.dirichlet(...) * cds_span).astype(int)` of rejection attempt `t`, and
`pickDraw r k` the position chosen by `rng.choice` for segment `k`. -/
structure Rng where
  noncdsDraw : Nat → Nat
  cdsDraw : Nat → Nat
  nIntronsDraw : Nat → Nat
  candDraw : Nat → Nat → List Int
  pickDraw : Nat → Nat → Nat

/-- The mutable state set up by `ChromosomeRandom.__init__` in
shadie/chromosome/src/classes.py. -/
structure ChromosomeRandom where
  genome_size : Int
  gene_size : Int
  intron : Pool
  exon : Pool
  noncds : ElementType
  intron_scale : Option Int
  cds_scale : Option Int
  noncds_scale : Option Int
deriving Repr, DecidableEq

/-- `ChromosomeRandom.__init__` (shadie/chromosome/src/classes.py lines 66-95):
stores the element pools and the three scale parameters unvalidated, sets
`self.genome_size = int(genome_size - 1)` and `self.gene_size = genome_size`
(the `gene_size` parameter itself is ignored by the source; the `seed` only
feeds the numpy generator, which is modelled by `Rng`). No check of any scale
parameter is performed. -/
def ChromosomeRandom.init (genomeSize : Int) (intron exon : Pool)
    (noncds : ElementType) (intronScale cdsScale noncdsScale : Option Int) :
    ChromosomeRandom :=
  { genome_size := genomeSize - 1
  , gene_size := genomeSize
  , intron := intron
  , exon := exon
  , noncds := noncds
  , intron_scale := intronScale
  , cds_scale := cdsScale
  , noncds_scale := noncdsScale }

/-- The acceptance test of the rejection-sampling loop in
`ChromosomeRandom.get_cds_spans`: `all(i > 3 for i in splits)`. -/
def floorOk (l : List Int) : Bool := l.all (fun i => decide (3 < i))

/-- `splits[-1] = cds_span - sum(splits[:-1])`: overwrite the last candidate
entry so the segments sum exactly to the drawn coding length. -/
def fixLast (cdsSpan : Int) (cand : List Int) : List Int :=
  if cand.isEmpty then cand else cand.dropLast ++ [cdsSpan - cand.dropLast.sum]

/-- The `while True` rejection loop of `ChromosomeRandom.get_cds_spans`
(shadie/chromosome/src/classes.py lines 118-123): draw a candidate, apply the
last-entry fix, accept when every segment exceeds 3, otherwise redraw. `t`
numbers the attempts; `fuel` bounds the search, `none` modelling a
non-terminating loop. -/
def rejectFrom (cdsSpan : Int) (cand : Nat → List Int) : Nat → Nat → Option (List Int)
  | _, 0 => none
  | t, fuel + 1 =>
    let splits := fixLast cdsSpan (cand t)
    if floorOk splits then some splits else rejectFrom cdsSpan cand (t + 1) fuel

/-- `ChromosomeRandom.get_cds_spans` (shadie/chromosome/src/classes.py lines
106-126), draw-level view: draw a coding span and an intron count; with
introns, rejection sample the segment partition until every segment length
exceeds 3; without introns the whole span is one exon segment with no floor
applied. The draws are taken from the oracle, abstracting the scale arguments
of the underlying numpy calls; the scale-dependent exception paths of those
calls are made explicit in `ChromosomeRandom.get_cds_spans_full` below. -/
def ChromosomeRandom.get_cds_spans (rng : Rng) (r fuel : Nat) : Option (List Int) :=
  let cdsSpan : Int := (rng.cdsDraw r : Int)
  if rng.nIntronsDraw r ≠ 0 then rejectFrom cdsSpan (rng.candDraw r) 0 fuel
  else some [cdsSpan]

/-- Insertion step of `DataFrame.sort_index()` on rows keyed by the pandas
index. -/
def insertByKey (row : Row) : List Row → List Row
  | [] => [row]
  | x :: xs => if row.key ≤ x.key then row :: x :: xs else x :: insertByKey row xs

/-- `self.data.sort_index()` at the end of `ChromosomeRandom.run`. -/
def sortByKey (l : List Row) : List Row := l.foldr insertByKey []

/-- The inner `for enum, span in enumerate(spans)` loop of
`ChromosomeRandom.run` (shadie/chromosome/src/classes.py lines 158-177): even
segments take an exon element, odd segments an intron element (chosen from the
pool when it is a list), each written at `data.loc[idx]` as the interval
`[idx + 1, idx + span + 1]` before advancing `idx` by `span + 1`. -/
def placeCds (st : ChromosomeRandom) (rng : Rng) (r : Nat) :
    Nat → Int → List Int → List Row → Int × List Row
  | _, idx, [], data => (idx, data)
  | enum, idx, span :: rest, data =>
    let ele := if enum % 2 = 0 then st.exon.pick (rng.pickDraw r enum)
               else st.intron.pick (rng.pickDraw r enum)
    placeCds st rng r (enum + 1) (idx + span + 1) rest
      (locSet data (mkRow idx ele (idx + 1) (idx + span + 1)))

/-- The `while 1` loop of `ChromosomeRandom.run` (shadie/chromosome/src/
classes.py lines 137-178), draw-level view: write a non-coding interval of a
drawn span (its end clipped to `self.genome_size` by `min`), advance `idx`,
draw the coding spans, stop (sorting the data) as soon as the coding region
would run past `self.genome_size`, otherwise write the coding intervals and
loop. `r` is the round number, `fuel` bounds the outer loop and `innerFuel`
each rejection loop; `none` models non-termination. The two draw sites take
their values from the oracle, abstracting the scale arguments of the numpy
calls; the scale-dependent exception paths are made explicit in
`ChromosomeRandom.run_full` below. -/
def ChromosomeRandom.runLoop (st : ChromosomeRandom) (rng : Rng) (innerFuel : Nat) :
    Nat → Nat → Int → List Row → Option (List Row)
  | 0, _, _, _ => none
  | fuel + 1, r, idx, data =>
    let span : Int := (rng.noncdsDraw r : Int)
    let data1 := locSet data (mkRow idx st.noncds (idx + 1) (min (idx + 1 + span) st.genome_size))
    let idx1 := idx + span + 1
    match ChromosomeRandom.get_cds_spans rng r innerFuel with
    | none => none
    | some spans =>
      if st.genome_size < idx1 + spans.sum + (spans.length : Int) then
        some (sortByKey data1)
      else
        let step := placeCds st rng r 0 idx1 spans data1
        ChromosomeRandom.runLoop st rng innerFuel fuel (r + 1) step.1 step.2

/-- `ChromosomeRandom.run`: the loop started at `idx = 0` with an empty data
frame. -/
def ChromosomeRandom.run (st : ChromosomeRandom) (rng : Rng) (innerFuel fuel : Nat) :
    Option (List Row) :=
  ChromosomeRandom.runLoop st rng innerFuel fuel 0 0 []

/-- `ChromosomeRandom.get_noncds_span` (shadie/chromosome/src/classes.py lines
97-104) with the scale behaviour of the numpy call made explicit: the method
overwrites its argument with `self.noncds_scale` and returns
`int(self.rng.exponential(scale=scale))`. The call raises TypeError when the
scale is None and ValueError when it is negative; with scale 0 the exponential
is identically 0; for a positive scale the drawn value comes from the
oracle. -/
def ChromosomeRandom.get_noncds_span (st : ChromosomeRandom) (rng : Rng) (r : Nat) :
    Except String Nat :=
  match st.noncds_scale with
  | none => Except.error "TypeError: float() argument must be a real number, not NoneType"
  | some sc =>
    if sc < 0 then Except.error "ValueError: scale < 0"
    else if sc = 0 then Except.ok 0
    else Except.ok (rng.noncdsDraw r)

/-- `ChromosomeRandom.get_cds_spans` (shadie/chromosome/src/classes.py lines
106-126) with the scale-dependent behaviour of its sampling lines made
explicit. `length_scale = self.gene_size,` overwrites the parameter with a
1-tuple holding `self.gene_size`, so the coding-span exponential is scaled by
the genome-length argument (numpy rejects it when negative; at 0 the draw is
identically 0). `cds_span / intron_scale` raises TypeError when
`self.intron_scale` is None and ZeroDivisionError when it is 0; the poisson
call rejects the negative mean arising from a negative intron scale with a
positive span, and a zero mean (zero span) gives intron count 0
deterministically. All remaining draws come from the oracle, and the rejection
loop is `rejectFrom` as in the draw-level view. `none` models a
non-terminating rejection loop. -/
def ChromosomeRandom.get_cds_spans_full (st : ChromosomeRandom) (rng : Rng) (r fuel : Nat) :
    Option (Except String (List Int)) :=
  if st.gene_size < 0 then some (Except.error "ValueError: scale < 0")
  else
    let cdsSpan : Int := if st.gene_size = 0 then 0 else (rng.cdsDraw r : Int)
    match st.intron_scale with
    | none => some (Except.error "TypeError: unsupported operand types for div: int and NoneType")
    | some isc =>
      if isc = 0 then some (Except.error "ZeroDivisionError: division by zero")
      else if isc < 0 ∧ 0 < cdsSpan then some (Except.error "ValueError: lam < 0")
      else
        let nIntrons := if cdsSpan = 0 then 0 else rng.nIntronsDraw r
        if nIntrons ≠ 0 then
          match rejectFrom cdsSpan (rng.candDraw r) 0 fuel with
          | none => none
          | some spans => some (Except.ok spans)
        else some (Except.ok [cdsSpan])

/-- The `while 1` loop of `ChromosomeRandom.run` with the scale-dependent
exception paths of the two sampling sites (`get_noncds_span` and
`get_cds_spans`) made explicit: a raised Python exception is `some
(Except.error ...)`, a completed run is `some (Except.ok rows)`, and `none`
models non-termination. Interval placement, the break bound and the final
`sort_index` are exactly those of the draw-level `ChromosomeRandom.runLoop`. -/
def ChromosomeRandom.runLoop_full (st : ChromosomeRandom) (rng : Rng) (innerFuel : Nat) :
    Nat → Nat → Int → List Row → Option (Except String (List Row))
  | 0, _, _, _ => none
  | fuel + 1, r, idx, data =>
    match ChromosomeRandom.get_noncds_span st rng r with
    | Except.error e => some (Except.error e)
    | Except.ok spanN =>
      let span : Int := (spanN : Int)
      let data1 := locSet data (mkRow idx st.noncds (idx + 1) (min (idx + 1 + span) st.genome_size))
      let idx1 := idx + span + 1
      match ChromosomeRandom.get_cds_spans_full st rng r innerFuel with
      | none => none
      | some (Except.error e) => some (Except.error e)
      | some (Except.ok spans) =>
        if st.genome_size < idx1 + spans.sum + (spans.length : Int) then
          some (Except.ok (sortByKey data1))
        else
          let step := placeCds st rng r 0 idx1 spans data1
          ChromosomeRandom.runLoop_full st rng innerFuel fuel (r + 1) step.1 step.2

/-- `ChromosomeRandom.run` with explicit scale-dependent exception paths: the
loop started at `idx = 0` with an empty data frame. -/
def ChromosomeRandom.run_full (st : ChromosomeRandom) (rng : Rng) (innerFuel fuel : Nat) :
    Option (Except String (List Row)) :=
  ChromosomeRandom.runLoop_full st rng innerFuel fuel 0 0 []

/-- Python truthiness of an optional float value: None and 0.0 are falsy.
Rates are modelled as exact rationals since only the control flow and the
halving are at stake. -/
def truthy : Option ℚ → Bool
  | none => false
  | some x => x != 0

/-- The AssertionError message of the both-or-neither mutation-rate contract
(identical in bryobase.py and optimized/pteridophyte.py). -/
def mutationRateError : String :=
  "You must define a mutation rate for both sporophyte and gametophyte generations."

/-- `Bryophyte._set_mutation_rates` (shadie/reproduction/bryobase.py lines
55-65): `if self.spo_mutation_rate or self.gam_mutation_rate` tests Python
truthiness of the two optional rates; the inner assert requires both to be
not-None; the else-branch sets both to `0.5 * self.model._mutation_rate`.
`Except.error` models the AssertionError. -/
def Bryophyte.set_mutation_rates (modelRate : ℚ) (spo gam : Option ℚ) :
    Except String (ℚ × ℚ) :=
  if truthy spo || truthy gam then
    if spo.isSome && gam.isSome then Except.ok (spo.getD 0, gam.getD 0)
    else Except.error mutationRateError
  else Except.ok ((1 / 2) * modelRate, (1 / 2) * modelRate)

/-- The mutation-rate setup inlined in `Pteridophyte.run`
(shadie/reproduction/optimized/pteridophyte.py lines 72-81): the same
truthiness test, but the assert itself also tests truthiness
(`assert self.spo_mutation_rate and self.gam_mutation_rate`), and the body of
the surviving branch reassigns the two rates to themselves. -/
def Pteridophyte.set_mutation_rates (modelRate : ℚ) (spo gam : Option ℚ) :
    Except String (ℚ × ℚ) :=
  if truthy spo || truthy gam then
    if truthy spo && truthy gam then Except.ok (spo.getD 0, gam.getD 0)
    else Except.error mutationRateError
  else Except.ok ((1 / 2) * modelRate, (1 / 2) * modelRate)

/-- The symbolic-id assignment loop shared by
`Bryophyte._add_shared_mode_scripts` (shadie/reproduction/bryobase.py, `idx =
4` then `idx += 1; sidx = "s" + str(idx)` per mutation type) and
`Pteridophyte.heterosporous` / `Pteridophyte.homosporous`
(shadie/reproduction/optimized/pteridophyte.py, `i = 4` then `i = i + 1`).
`NonWrightFisher._add_alternation_of_generations` (shadie/reproduction/
base.py) advances the same kind of counter from 6, but only for mutation
types that do not affect both ploidy stages, and issues no symbolic ids at all
(its `sidx` line is commented out and `muteffect` receives `idx=None`);
applying this fold with start 6 to that filtered sublist models its counter.
Returns the numeric parts of the issued ids in issue order. -/
def callbackIds (start : Nat) (muts : List MutationType) : List Nat :=
  (muts.foldl (fun (acc : Nat × List Nat) _ => (acc.1 + 1, acc.2 ++ [acc.1 + 1]))
    (start, [])).2

/-- A `late()` event pushed into the model map: its scheduled tick (None means
every tick), its script statements, and its comment. -/
structure LateEvent where
  time : Option Int
  scripts : List String
  comment : String
deriving Repr, DecidableEq

/-- `ReproductionBase._write_trees_file` (shadie/reproduction/base.py lines
53-88): `endtime = int(self.model.sim_time * gens + 1)`; without a `file_in`
the final late event is scheduled at `endtime`, with one it is rescheduled at
`int(endtime + ts_start.max_root_time)`. The loaded tree sequence is external
input, so its `max_root_time` is passed here as the content of `fileIn`. -/
def ReproductionBase.write_trees_file (simTime gens : Int) (fileIn : Option Int)
    (fileOut : String) : LateEvent :=
  let endtime := simTime * gens + 1
  let scripts :=
    [ "sim.treeSeqRememberIndividuals(sim.subpopulations.individuals)"
    , "sim.treeSeqOutput(\x27" ++ fileOut ++ "\x27, metadata = METADATA)" ]
  match fileIn with
  | some simStart =>
    { time := some (endtime + simStart), scripts := scripts
    , comment := "end of sim; save .trees file" }
  | none =>
    { time := some endtime, scripts := scripts
    , comment := "end of sim; save .trees file" }

/-- `Pteridophyte.end_sim` (shadie/reproduction/optimized/pteridophyte.py lines
135-146): `endtime = int(self._sim_time + 1)`; the api layer
(shadie/reproduction/optimized/api_opt.py) passes `_sim_time = 2 *
self.model.sim_time`. -/
def Pteridophyte.end_sim (simTimeArg : Int) (fileOut : String) : LateEvent :=
  { time := some (simTimeArg + 1)
  , scripts :=
      [ "sim.treeSeqRememberIndividuals(sim.subpopulations.individuals)\n"
      , "sim.treeSeqOutput(\x27" ++ fileOut ++ "\x27)" ]
  , comment := "end of sim; save .trees file" }

/-- The optional fields of one event dict handed to
`format_event_dicts_to_strings` (shadie/sims/format.py). -/
structure EventDict where
  time : Option Int
  comment : Option String
  idx : Option String
  population : Option String
deriving Repr, DecidableEq

/-- Python truthiness of an optional string: None and the empty string are
falsy. -/
def truthyStr : Option String → Bool
  | none => false
  | some s => s != ""

/-- The formatted tokens produced by `format_event_dicts_to_strings`. -/
structure FormattedEvent where
  time : String
  comment : String
  idx : String
  population : String
deriving Repr, DecidableEq

/-- `format_event_dicts_to_strings` (shadie/sims/format.py lines 89-121),
restricted to the token fields: `time` becomes `f"{time} "` when the value is
truthy and the empty string otherwise (so both None and tick 0 lose the
prefix); `comment` is normalised to a single leading marker; `idx` and
`population` get one trailing space when truthy. -/
def format_event_dicts_to_strings (e : EventDict) : FormattedEvent :=
  { time :=
      match e.time with
      | none => ""
      | some v => if v = 0 then "" else toString v ++ " "
  , comment :=
      match e.comment with
      | none => ""
      | some c => if c = "" then "" else "// " ++ ((c.dropWhile (· == '/')).trim) ++ "\n"
  , idx :=
      match e.idx with
      | none => ""
      | some i => if i = "" then "" else i ++ " "
  , population :=
      match e.population with
      | none => ""
      | some p => if p = "" then "" else p ++ " " }

/-- The LATE template of shadie/sims/format.py applied to a formatted event:
`"{comment}{time}late() {{ ... {scripts} }}"`. -/
def renderLate (e : EventDict) (scripts : String) : String :=
  let f := format_event_dicts_to_strings e
  "\n" ++ f.comment ++ f.time ++
    "late() \x7b // executes after selection occurs\n    " ++ scripts ++ "\n\x7d\n"

instance : ∀ a b : Row, Decidable (NoOverlap a b) := fun a b => by
  unfold NoOverlap; infer_instance

/-- The rows of `data` stored at pandas index `k`. -/
def keyRows (k : Int) (l : List Row) : List Row := l.filter (fun r => r.key == k)

/-- The pandas-index values of `data` are pairwise distinct. -/
def keysNodup (l : List Row) : Prop := (l.map (fun r => r.key)).Nodup

/-- Loop invariant of `ChromosomeRandom.run`: rows are strictly ordered by
index with disjoint adjacent intervals, and every row ends at or before the
current cursor `idx` and at or before `gs` (the stored genome size). -/
def DataInv (gs idx : Int) (data : List Row) : Prop :=
  data.Pairwise (fun a b => a.key < b.key ∧ a.stop < b.start) ∧
  ∀ r ∈ data, r.key < idx ∧ r.stop ≤ idx ∧ r.stop ≤ gs

/-! ## Helper lemmas -/

theorem callbackIds_fold (muts : List MutationType) :
    ∀ (s : Nat) (acc : List Nat),
      (muts.foldl (fun (a : Nat × List Nat) _ => (a.1 + 1, a.2 ++ [a.1 + 1])) (s, acc)).2
        = acc ++ List.range' (s + 1) muts.length := by
  induction muts with
  | nil => intro s acc; simp
  | cons m rest ih =>
    intro s acc
    simp only [List.foldl_cons]
    rw [ih (s + 1) (acc ++ [s + 1])]
    simp [List.range'_succ]

theorem callbackIds_eq_range' (start : Nat) (muts : List MutationType) :
    callbackIds start muts = List.range' (start + 1) muts.length := by
  unfold callbackIds
  rw [callbackIds_fold muts start []]
  simp

/-! ## C6 -/

/-- C6: within one build session, the symbolic callback ids issued for
mutation-effect callbacks (the `s5, s6, ...` loop of
`Bryophyte._add_shared_mode_scripts` and of the two `Pteridophyte` modes,
start = 4, and the idx = 6 counter of
`NonWrightFisher._add_alternation_of_generations`) are pairwise distinct and
all lie strictly above the reserved low range 0..3. -/
theorem C6_theorem (muts : List MutationType) :
    (callbackIds 4 muts).Nodup ∧ (∀ i ∈ callbackIds 4 muts, 3 < i) ∧
    (callbackIds 6 muts).Nodup ∧ (∀ i ∈ callbackIds 6 muts, 3 < i) := by
  refine ⟨?_, ?_, ?_, ?_⟩ <;> rw [callbackIds_eq_range']
  · exact List.nodup_range' _ _
  · intro i hi
    rw [List.mem_range'] at hi
    omega
  · exact List.nodup_range' _ _
  · intro i hi
    rw [List.mem_range'] at hi
    omega

/-! ## C5 -/

/-- C5 counterexample: supplying exactly one of the two rates, with the value
0.0, does not fail with a configuration error — the Python truthiness test
sends it into the neither-branch, silently replacing the supplied value by
half the model rate. -/
theorem C5_counterexample :
    Bryophyte.set_mutation_rates 1 (some 0) none = Except.ok (1 / 2, 1 / 2) := by
  norm_num [Bryophyte.set_mutation_rates, truthy]

/-- C5 (amended): under Python truthiness the two two-stage composers agree
that supplying exactly one nonzero rate with the other None fails with the
configuration error, that supplying nothing truthy (None or a supplied 0.0,
for both rates) sets both rates to half the model rate, and that two nonzero
supplied rates are kept unmodified; but when one supplied rate is 0.0 and the
other nonzero the composers diverge: Bryophyte, whose inner assert tests
is-not-None, succeeds keeping both supplied values unmodified, while the
optimized Pteridophyte, whose assert tests truthiness, fails with the
configuration error. -/
theorem C5_theorem (base x y : ℚ) (hx : x ≠ 0) (hy : y ≠ 0) :
    Bryophyte.set_mutation_rates base (some x) none = Except.error mutationRateError ∧
    Bryophyte.set_mutation_rates base none (some y) = Except.error mutationRateError ∧
    Bryophyte.set_mutation_rates base none none
      = Except.ok ((1 / 2) * base, (1 / 2) * base) ∧
    Bryophyte.set_mutation_rates base (some 0) (some 0)
      = Except.ok ((1 / 2) * base, (1 / 2) * base) ∧
    Bryophyte.set_mutation_rates base (some x) (some y) = Except.ok (x, y) ∧
    Bryophyte.set_mutation_rates base (some x) (some 0) = Except.ok (x, 0) ∧
    Bryophyte.set_mutation_rates base (some 0) (some y) = Except.ok (0, y) ∧
    Pteridophyte.set_mutation_rates base (some x) none = Except.error mutationRateError ∧
    Pteridophyte.set_mutation_rates base none (some y) = Except.error mutationRateError ∧
    Pteridophyte.set_mutation_rates base none none
      = Except.ok ((1 / 2) * base, (1 / 2) * base) ∧
    Pteridophyte.set_mutation_rates base (some 0) (some 0)
      = Except.ok ((1 / 2) * base, (1 / 2) * base) ∧
    Pteridophyte.set_mutation_rates base (some x) (some y) = Except.ok (x, y) ∧
    Pteridophyte.set_mutation_rates base (some x) (some 0)
      = Except.error mutationRateError ∧
    Pteridophyte.set_mutation_rates base (some 0) (some y)
      = Except.error mutationRateError := by
  simp [Bryophyte.set_mutation_rates, Pteridophyte.set_mutation_rates, truthy, hx, hy]

/-- C5 witness: the amended contract, divergent cases included, at base rate 1
with supplied rates 2 and 3. -/
theorem C5_witness :
    Bryophyte.set_mutation_rates 1 (some 2) none = Except.error mutationRateError ∧
    Bryophyte.set_mutation_rates 1 none (some 3) = Except.error mutationRateError ∧
    Bryophyte.set_mutation_rates 1 none none
      = Except.ok ((1 / 2) * 1, (1 / 2) * 1) ∧
    Bryophyte.set_mutation_rates 1 (some 0) (some 0)
      = Except.ok ((1 / 2) * 1, (1 / 2) * 1) ∧
    Bryophyte.set_mutation_rates 1 (some 2) (some 3) = Except.ok (2, 3) ∧
    Bryophyte.set_mutation_rates 1 (some 2) (some 0) = Except.ok (2, 0) ∧
    Bryophyte.set_mutation_rates 1 (some 0) (some 3) = Except.ok (0, 3) ∧
    Pteridophyte.set_mutation_rates 1 (some 2) none = Except.error mutationRateError ∧
    Pteridophyte.set_mutation_rates 1 none (some 3) = Except.error mutationRateError ∧
    Pteridophyte.set_mutation_rates 1 none none
      = Except.ok ((1 / 2) * 1, (1 / 2) * 1) ∧
    Pteridophyte.set_mutation_rates 1 (some 0) (some 0)
      = Except.ok ((1 / 2) * 1, (1 / 2) * 1) ∧
    Pteridophyte.set_mutation_rates 1 (some 2) (some 3) = Except.ok (2, 3) ∧
    Pteridophyte.set_mutation_rates 1 (some 2) (some 0)
      = Except.error mutationRateError ∧
    Pteridophyte.set_mutation_rates 1 (some 0) (some 3)
      = Except.error mutationRateError :=
  C5_theorem 1 2 3 (by norm_num) (by norm_num)

/-! ## C8 -/

/-- C8 counterexample: with `sim_time = 10` and 2 generations per life cycle
the final late event is scheduled at tick 21, not at `10 * 2 = 20` as the
claim states. -/
theorem C8_counterexample :
    (ReproductionBase.write_trees_file 10 2 none "out.trees").time ≠ some (10 * 2) := by
  decide

/-- C8 (amended): the terminal late event is scheduled at tick
`sim_time * gens_per_lifecycle + 1`; when a prior saved state is loaded the
tick is instead `sim_time * gens_per_lifecycle + 1` plus the loaded run's
maximum recorded root time. The optimized Pteridophyte composer schedules its
end at `_sim_time + 1` with `_sim_time = 2 * sim_time` supplied by the api
layer, matching the same formula. -/
theorem C8_theorem (simTime gens maxRoot : Int) (fileOut : String) :
    (ReproductionBase.write_trees_file simTime gens none fileOut).time
      = some (simTime * gens + 1) ∧
    (ReproductionBase.write_trees_file simTime gens (some maxRoot) fileOut).time
      = some (simTime * gens + 1 + maxRoot) ∧
    (Pteridophyte.end_sim (2 * simTime) fileOut).time = some (2 * simTime + 1) :=
  ⟨rfl, rfl, rfl⟩

/-! ## C9 -/

/-- C9 counterexample: an event pinned to tick 0 renders exactly like an
every-tick event — the timing token is dropped for tick 0 as well, because the
source tests Python truthiness (`if event['time']`), not None-ness. -/
theorem C9_counterexample :
    renderLate { time := some 0, comment := none, idx := none, population := none } "x;"
      = renderLate { time := none, comment := none, idx := none, population := none } "x;"
    ∧ (format_event_dicts_to_strings
        { time := some 0, comment := none, idx := none, population := none }).time = "" :=
  ⟨rfl, rfl⟩

/-- C9 (amended): the timing token is omitted exactly when the event time is
falsy, that is None or tick 0; every nonzero tick value is rendered as that
tick followed by a space, pinning the callback to that tick. -/
theorem C9_theorem (t : Int) (ht : t ≠ 0) (c i p : Option String) :
    (format_event_dicts_to_strings { time := some t, comment := c, idx := i, population := p }).time
      = toString t ++ " " ∧
    (∀ e : EventDict, (format_event_dicts_to_strings e).time = ""
      ↔ e.time = none ∨ e.time = some 0) := by
  constructor
  · simp [format_event_dicts_to_strings, ht]
  · intro e
    rcases e with ⟨te, ce, ie, pe⟩
    cases te with
    | none => simp [format_event_dicts_to_strings]
    | some v =>
      by_cases hv : v = 0
      · subst hv; simp [format_event_dicts_to_strings]
      · simp only [format_event_dicts_to_strings, if_neg hv]
        constructor
        · intro h
          have hlen := congrArg String.length h
          rw [String.length_append] at hlen
          have h1 : (" " : String).length = 1 := rfl
          have h0 : ("" : String).length = 0 := rfl
          rw [h1, h0] at hlen
          exact absurd hlen (by omega)
        · intro h
          rcases h with h | h
          · exact absurd h (by simp)
          · simp at h; exact absurd h hv

/-- C9 witness: tick 5 keeps its prefix. -/
theorem C9_witness :
    (format_event_dicts_to_strings
      { time := some 5, comment := none, idx := none, population := none }).time
      = toString (5 : Int) ++ " " ∧
    (∀ e : EventDict, (format_event_dicts_to_strings e).time = ""
      ↔ e.time = none ∨ e.time = some 0) :=
  C9_theorem 5 (by norm_num) none none none

/-! ## Dedup lemmas for the mutation-name collection -/

theorem collect_fold_bind (els : List ElementType) :
    ∀ acc, els.foldl
        (fun acc e =>
          e.mlist.foldl (fun a2 m => if m.name ∈ a2 then a2 else a2 ++ [m.name]) acc) acc
      = (els.flatMap (fun e => e.mlist.map (fun m => m.name))).foldl
          (fun a2 n => if n ∈ a2 then a2 else a2 ++ [n]) acc := by
  induction els with
  | nil => intro acc; simp
  | cons e rest ih =>
    intro acc
    simp only [List.foldl_cons, List.flatMap_cons, List.foldl_append]
    rw [ih]
    congr 1
    rw [List.foldl_map]

theorem dedupFold_eq (l : List String) :
    ∀ acc, l.foldl (fun a n => if n ∈ a then a else a ++ [n]) acc
      = acc ++ (firstSeenDedup l).filter (fun x => !(decide (x ∈ acc))) := by
  induction l with
  | nil => intro acc; simp [firstSeenDedup]
  | cons n rest ih =>
    intro acc
    by_cases hn : n ∈ acc
    · simp only [List.foldl_cons, if_pos hn]
      rw [ih acc]
      congr 1
      simp only [firstSeenDedup, List.filter_cons]
      rw [if_neg (by simp [hn])]
      rw [List.filter_filter]
      apply List.filter_congr
      intro x _
      by_cases hx : x = n
      · subst hx; simp [hn]
      · simp [hx]
    · simp only [List.foldl_cons, if_neg hn]
      rw [ih (acc ++ [n])]
      simp only [firstSeenDedup, List.filter_cons]
      rw [if_pos (by simp [hn])]
      rw [List.filter_filter]
      rw [List.append_assoc, List.singleton_append]
      congr 2
      apply List.filter_congr
      intro x _
      by_cases hx : x = n
      · subst hx; simp
      · by_cases hxa : x ∈ acc <;> simp [hx, hxa]

theorem collectMutationNames_eq_firstSeenDedup (els : List ElementType) :
    collectMutationNames els
      = firstSeenDedup (els.flatMap (fun e => e.mlist.map (fun m => m.name))) := by
  unfold collectMutationNames
  rw [collect_fold_bind, dedupFold_eq]
  simp

theorem firstSeenDedup_of_nodup (l : List String) (h : l.Nodup) : firstSeenDedup l = l := by
  induction l with
  | nil => rfl
  | cons n rest ih =>
    rcases List.nodup_cons.mp h with ⟨hn, hrest⟩
    simp only [firstSeenDedup, ih hrest]
    rw [List.filter_eq_self.mpr]
    intro a ha
    simp only [bne_iff_ne, ne_eq]
    intro hEq
    exact hn (hEq ▸ ha)

/-! ## C2 -/

/-- C2 counterexample: two distinctly constructed mutation types with the same
name "mX", reachable through two intervals, collapse into one entry of the
model's mutation collection — the code deduplicates by name, not by identity
(the identity-keyed dedup of the two types would keep 2 entries). -/
theorem C2_counterexample :
    ∃ m, ChromosomeExplicit
        [ ((0, 4), some { uid := 20, name := "g5", altname := "a"
                        , mlist := [{ uid := 21, name := "mX" }], is_coding := true })
        , ((5, 9), some { uid := 22, name := "g6", altname := "b"
                        , mlist := [{ uid := 23, name := "mX" }], is_coding := true }) ]
      = Except.ok m ∧
      m.mutations = ["mX"] ∧
      (([ { uid := 21, name := "mX" }, { uid := 23, name := "mX" } ]
        : List MutationType).dedup).length = 2 := by
  refine ⟨_, rfl, ?_, ?_⟩ <;> decide

/-- C2 (amended): the model's `mutations` collection is the first-seen
deduplication, keyed by mutation NAME (not object identity), of the names of
all mutation types reachable from the element types of the input mapping, in
value-iteration order; distinct types with equal names collapse to one
entry. -/
theorem C2_theorem (entries : List Entry) (m : ChromosomeModel)
    (h : ChromosomeExplicit entries = Except.ok m) :
    m.mutations = firstSeenDedup
      ((entries.filterMap (fun q => q.2)).flatMap
        (fun e => e.mlist.map (fun mt => mt.name))) := by
  unfold ChromosomeExplicit at h
  by_cases h1 : entries.isEmpty
  · simp [h1] at h
  · simp only [h1, if_false, Bool.false_eq_true] at h
    by_cases h2 : entries.any (fun q => q.2.isNone)
    · simp [h2] at h
    · simp only [h2, if_false, Bool.false_eq_true, Except.ok.injEq] at h
      subst h
      simpa using collectMutationNames_eq_firstSeenDedup (entries.filterMap (fun q => q.2))

/-- C2 witness: the amended collection law at a concrete two-name element. -/
theorem C2_witness :
    ChromosomeExplicit
        [ ((0, 9), some { uid := 40, name := "g7", altname := "w"
                        , mlist := [{ uid := 41, name := "mP" }, { uid := 42, name := "mQ" }]
                        , is_coding := false }) ]
      = Except.ok
          { genome_size := 10
          , data := [ mkRow 0
              { uid := 40, name := "g7", altname := "w"
              , mlist := [{ uid := 41, name := "mP" }, { uid := 42, name := "mQ" }]
              , is_coding := false } 0 9 ]
          , mutations := ["mP", "mQ"] } ∧
    ({ genome_size := 10
     , data := [ mkRow 0
         { uid := 40, name := "g7", altname := "w"
         , mlist := [{ uid := 41, name := "mP" }, { uid := 42, name := "mQ" }]
         , is_coding := false } 0 9 ]
     , mutations := ["mP", "mQ"] } : ChromosomeModel).mutations
      = firstSeenDedup
          ((([ ((0, 9), some { uid := 40, name := "g7", altname := "w"
                             , mlist := [{ uid := 41, name := "mP" }, { uid := 42, name := "mQ" }]
                             , is_coding := false }) ] : List Entry).filterMap
              (fun q => q.2)).flatMap
            (fun e => e.mlist.map (fun mt => mt.name))) :=
  ⟨rfl, C2_theorem _ _ rfl⟩

/-! ## C3 -/

/-- C3 counterexample: with an element type whose declared mutation list holds
two distinctly constructed types that share the name "mD", the model built
from `{(0, 1000): T}` stores a single mutation entry, so its mutation-type
sequence does not equal T's two-element mutation list. -/
theorem C3_counterexample :
    ∃ m, ChromosomeExplicit
        [ ((0, 1000), some { uid := 30, name := "g8", altname := "d"
                           , mlist := [{ uid := 31, name := "mD" }, { uid := 32, name := "mD" }]
                           , is_coding := true }) ]
      = Except.ok m ∧
      m.mutations.length = 1 ∧
      ({ uid := 30, name := "g8", altname := "d"
       , mlist := [{ uid := 31, name := "mD" }, { uid := 32, name := "mD" }]
       , is_coding := true } : ElementType).mlist.length = 2 := by
  refine ⟨_, rfl, ?_, ?_⟩ <;> decide

/-- C3 (amended): for the input mapping `{(0, 1000): T}` the model has exactly
one interval `[0, 1000]` with element type T and genome length 1001, and its
`mutations` sequence is the first-seen deduplicated list of the NAMES of T's
mutation list — equal to the names of T's mutation list in declared order
whenever those names are pairwise distinct. -/
theorem C3_theorem (T : ElementType) (h : (T.mlist.map (fun m => m.name)).Nodup) :
    ∃ m, ChromosomeExplicit [((0, 1000), some T)] = Except.ok m ∧
      m.data = [mkRow 0 T 0 1000] ∧ m.genome_size = 1001 ∧
      m.mutations = T.mlist.map (fun mt => mt.name) := by
  have h3 : collectMutationNames [T] = T.mlist.map (fun mt => mt.name) := by
    rw [collectMutationNames_eq_firstSeenDedup]
    simp only [List.flatMap_cons, List.flatMap_nil, List.append_nil]
    exact firstSeenDedup_of_nodup _ h
  refine ⟨_, rfl, rfl, rfl, ?_⟩
  simpa using h3

/-- C3 witness: the round trip at a concrete element type with two distinctly
named mutations. -/
theorem C3_witness :
    (((( { uid := 50, name := "g4", altname := "r"
         , mlist := [{ uid := 51, name := "mR" }, { uid := 52, name := "mS" }]
         , is_coding := true } : ElementType).mlist.map (fun m => m.name)).Nodup)) ∧
    ∃ m, ChromosomeExplicit
        [ ((0, 1000), some { uid := 50, name := "g4", altname := "r"
                           , mlist := [{ uid := 51, name := "mR" }, { uid := 52, name := "mS" }]
                           , is_coding := true }) ]
      = Except.ok m ∧
      m.data = [mkRow 0
        { uid := 50, name := "g4", altname := "r"
        , mlist := [{ uid := 51, name := "mR" }, { uid := 52, name := "mS" }]
        , is_coding := true } 0 1000] ∧
      m.genome_size = 1001 ∧
      m.mutations = ({ uid := 50, name := "g4", altname := "r"
                     , mlist := [{ uid := 51, name := "mR" }, { uid := 52, name := "mS" }]
                     , is_coding := true } : ElementType).mlist.map (fun mt => mt.name) :=
  ⟨by decide, C3_theorem _ (by decide)⟩

/-! ## locSet and keyRows lemmas -/

theorem replaceRow_of_eq (row r : Row) (h : r.key = row.key) : replaceRow row r = row := by
  unfold replaceRow
  rw [if_pos (by simp [h])]

theorem replaceRow_of_ne (row r : Row) (h : ¬ r.key = row.key) : replaceRow row r = r := by
  unfold replaceRow
  rw [if_neg (by simp [h])]

theorem replaceRow_key (row r : Row) : (replaceRow row r).key = r.key := by
  unfold replaceRow
  by_cases h : r.key = row.key
  · rw [if_pos (by simp [h]), h]
  · rw [if_neg (by simp [h])]

theorem locSet_of_fresh (data : List Row) (row : Row)
    (h : ∀ r ∈ data, r.key ≠ row.key) : locSet data row = data ++ [row] := by
  unfold locSet
  rw [if_neg]
  simp only [List.any_eq_true, beq_iff_eq, not_exists]
  intro r hr
  exact h r hr.1 hr.2

theorem locSet_keysNodup (data : List Row) (row : Row) (h : keysNodup data) :
    keysNodup (locSet data row) := by
  unfold locSet
  by_cases hc : data.any (fun r => r.key == row.key) = true
  · rw [if_pos hc]
    unfold keysNodup at *
    have hmap : (data.map (replaceRow row)).map (fun r => r.key)
        = data.map (fun r => r.key) := by
      rw [List.map_map]
      apply List.map_congr_left
      intro r _
      exact replaceRow_key row r
    rw [hmap]
    exact h
  · rw [if_neg hc]
    unfold keysNodup at *
    rw [List.map_append]
    refine List.Nodup.append h (List.nodup_singleton _) ?_
    intro k hk1 hk2
    simp only [List.map_cons, List.map_nil, List.mem_singleton] at hk2
    subst hk2
    rcases List.mem_map.mp hk1 with ⟨r, hr, hrk⟩
    exact hc (List.any_eq_true.mpr ⟨r, hr, by simp [hrk]⟩)

theorem keyRows_empty_of_not_mem (data : List Row) (k : Int)
    (h : ∀ r ∈ data, r.key ≠ k) : keyRows k data = [] := by
  unfold keyRows
  rw [List.filter_eq_nil_iff]
  intro r hr
  simp [h r hr]

theorem keyRows_map_replace (row : Row) (k : Int) (h : row.key ≠ k) :
    ∀ data : List Row,
      keyRows k (data.map (replaceRow row)) = keyRows k data := by
  intro data
  induction data with
  | nil => rfl
  | cons r rest ih =>
    simp only [List.map_cons]
    unfold keyRows at *
    rw [List.filter_cons, List.filter_cons]
    by_cases hr : r.key = row.key
    · rw [replaceRow_of_eq row r hr]
      rw [if_neg (by simp [h]), if_neg (by simp [hr]; exact fun hk => h (hk ▸ rfl) )]
      exact ih
    · rw [replaceRow_of_ne row r hr]
      by_cases hk : r.key = k
      · rw [if_pos (by simp [hk]), if_pos (by simp [hk]), ih]
      · rw [if_neg (by simp [hk]), if_neg (by simp [hk])]
        exact ih

theorem keyRows_locSet_ne (data : List Row) (row : Row) (k : Int) (h : row.key ≠ k) :
    keyRows k (locSet data row) = keyRows k data := by
  unfold locSet
  by_cases hc : data.any (fun r => r.key == row.key) = true
  · rw [if_pos hc]
    exact keyRows_map_replace row k h data
  · rw [if_neg hc]
    unfold keyRows
    rw [List.filter_append]
    have hsingle : List.filter (fun r => r.key == k) [row] = [] := by
      simp [h]
    rw [hsingle, List.append_nil]

theorem keyRows_map_replace_eq (row : Row) :
    ∀ data : List Row, keysNodup data →
      row.key ∈ data.map (fun r => r.key) →
      keyRows row.key (data.map (replaceRow row)) = [row] := by
  intro data
  induction data with
  | nil => intro _ hmem; simp at hmem
  | cons r rest ih =>
    intro hnd hmem
    unfold keysNodup at hnd
    simp only [List.map_cons, List.nodup_cons] at hnd
    rcases hnd with ⟨hnotin, hrest⟩
    simp only [List.map_cons]
    unfold keyRows at *
    rw [List.filter_cons]
    by_cases hr : r.key = row.key
    · have hnone : ∀ x ∈ rest, x.key ≠ row.key := by
        intro x hx hEq
        exact hnotin (hr ▸ hEq ▸ List.mem_map_of_mem (fun r => r.key) hx)
      have hmapid : rest.map (replaceRow row) = rest := by
        conv_rhs => rw [← List.map_id rest]
        apply List.map_congr_left
        intro x hx
        rw [replaceRow_of_ne row x (hnone x hx)]
        rfl
      have hempty := keyRows_empty_of_not_mem rest row.key hnone
      unfold keyRows at hempty
      rw [replaceRow_of_eq row r hr]
      rw [if_pos (by simp)]
      rw [hmapid, hempty]
    · have hmem2 : row.key ∈ rest.map (fun r => r.key) := by
        rcases List.mem_cons.mp hmem with hcase | hcase
        · exact absurd hcase.symm hr
        · exact hcase
      rw [replaceRow_of_ne row r hr]
      rw [if_neg (by simp [hr])]
      exact ih hrest hmem2

theorem keyRows_locSet_self (data : List Row) (row : Row) (hnd : keysNodup data) :
    keyRows row.key (locSet data row) = [row] := by
  unfold locSet
  by_cases hc : data.any (fun r => r.key == row.key) = true
  · rw [if_pos hc]
    apply keyRows_map_replace_eq row data hnd
    rcases List.any_eq_true.mp hc with ⟨r, hr, hk⟩
    rw [beq_iff_eq] at hk
    exact hk ▸ List.mem_map_of_mem (fun r => r.key) hr
  · rw [if_neg hc]
    unfold keyRows
    rw [List.filter_append]
    have hempty : List.filter (fun r => r.key == row.key) data = [] := by
      rw [List.filter_eq_nil_iff]
      intro r hr hk
      exact hc (List.any_eq_true.mpr ⟨r, hr, hk⟩)
    rw [hempty]
    simp

/-! ## foldData and stable-sort lemmas -/

theorem foldData_keyRows (k : Int) :
    ∀ (L : List Entry) (acc : List Row), keysNodup acc →
      keyRows k (foldData acc L)
        = ((L.filter (fun e => e.1.1 == k && e.2.isSome)).getLast?).elim
            (keyRows k acc)
            (fun e => [mkRow e.1.1 (e.2.getD NONCDS) e.1.1 e.1.2]) := by
  intro L
  induction L with
  | nil =>
    intro acc _
    simp [foldData]
  | cons e rest ih =>
    intro acc hnd
    cases he : e.2 with
    | none =>
      have hstep : foldData acc (e :: rest) = foldData acc rest := by
        unfold foldData
        rw [List.foldl_cons, he]
      rw [hstep]
      rw [List.filter_cons, if_neg (by simp [he])]
      exact ih acc hnd
    | some t =>
      have hstep : foldData acc (e :: rest)
          = foldData (locSet acc (mkRow e.1.1 t e.1.1 e.1.2)) rest := by
        unfold foldData
        rw [List.foldl_cons, he]
      rw [hstep]
      have hnd2 := locSet_keysNodup acc (mkRow e.1.1 t e.1.1 e.1.2) hnd
      rw [ih (locSet acc (mkRow e.1.1 t e.1.1 e.1.2)) hnd2]
      by_cases hk : e.1.1 = k
      · rw [List.filter_cons, if_pos (by simp [he, hk])]
        cases hrest : (rest.filter (fun e => e.1.1 == k && e.2.isSome)).getLast? with
        | none =>
          have hnil : rest.filter (fun e => e.1.1 == k && e.2.isSome) = [] := by
            rwa [List.getLast?_eq_none_iff] at hrest
          rw [hnil]
          have hself : keyRows k (locSet acc (mkRow e.1.1 t e.1.1 e.1.2))
              = [mkRow e.1.1 t e.1.1 e.1.2] := by
            have hkey : (mkRow e.1.1 t e.1.1 e.1.2).key = k := hk
            rw [← hkey]
            exact keyRows_locSet_self acc (mkRow e.1.1 t e.1.1 e.1.2) hnd
          simp [Option.elim, hself, he]
        | some e2 =>
          have hcons : ((e :: rest.filter (fun e => e.1.1 == k && e.2.isSome))).getLast?
              = some e2 := by
            cases hfq : rest.filter (fun e => e.1.1 == k && e.2.isSome) with
            | nil => rw [hfq] at hrest; simp at hrest
            | cons a as =>
              rw [hfq] at hrest
              rw [List.getLast?_cons_cons]
              exact hrest
          rw [hcons]
          rfl
      · rw [List.filter_cons, if_neg (by simp [hk])]
        have hne : (mkRow e.1.1 t e.1.1 e.1.2).key ≠ k := hk
        rw [keyRows_locSet_ne acc (mkRow e.1.1 t e.1.1 e.1.2) k hne]

theorem filter_insertByStart_pos (p : Entry → Bool) (s : Int)
    (hp : ∀ x : Entry, p x = true → x.1.1 = s) (e : Entry) (hpe : p e = true) :
    ∀ l : List Entry, (insertByStart e l).filter p = e :: l.filter p := by
  intro l
  induction l with
  | nil => simp [insertByStart, hpe]
  | cons x xs ih =>
    unfold insertByStart
    by_cases hle : e.1.1 ≤ x.1.1
    · rw [if_pos hle, List.filter_cons, if_pos (by simp [hpe])]
    · rw [if_neg hle]
      have hxs : p x = false := by
        cases hx : p x
        · rfl
        · exact absurd (le_of_eq ((hp e hpe).trans (hp x hx).symm)) hle
      rw [List.filter_cons, List.filter_cons]
      rw [if_neg (by simp [hxs]), if_neg (by simp [hxs])]
      exact ih

theorem filter_insertByStart_neg (p : Entry → Bool) (e : Entry) (hpe : p e = false) :
    ∀ l : List Entry, (insertByStart e l).filter p = l.filter p := by
  intro l
  induction l with
  | nil => simp [insertByStart, hpe]
  | cons x xs ih =>
    unfold insertByStart
    by_cases hle : e.1.1 ≤ x.1.1
    · rw [if_pos hle, List.filter_cons, if_neg (by simp [hpe])]
    · rw [if_neg hle, List.filter_cons, ih, ← List.filter_cons]

theorem filter_sortByStart (p : Entry → Bool) (s : Int)
    (hp : ∀ x : Entry, p x = true → x.1.1 = s) :
    ∀ l : List Entry, (sortByStart l).filter p = l.filter p := by
  intro l
  induction l with
  | nil => rfl
  | cons a l ih =>
    have hsort : sortByStart (a :: l) = insertByStart a (sortByStart l) := rfl
    rw [hsort]
    cases ha : p a
    · rw [filter_insertByStart_neg p a ha, ih, List.filter_cons, if_neg (by simp [ha])]
    · rw [filter_insertByStart_pos p s hp a ha, ih, List.filter_cons, if_pos (by simp [ha])]

theorem ChromosomeExplicit_ok (entries : List Entry) (h1 : entries.isEmpty = false)
    (h2 : entries.any (fun q => q.2.isNone) = false) :
    ChromosomeExplicit entries = Except.ok
      { genome_size := (entries.map (fun q => q.1.2 + 1)).foldl max
          ((entries.headD (((0 : Int), (0 : Int)), none)).1.2 + 1)
      , data := foldData [] (sortByStart entries)
      , mutations := collectMutationNames (entries.filterMap (fun q => q.2)) } := by
  unfold ChromosomeExplicit
  rw [h1, h2]
  simp

/-! ## C10 -/

/-- C10: when the explicit input mapping contains two keys with the same start
position, construction succeeds (no failure path is taken) and the start-keyed
data frame retains exactly one interval at that start: the entry iterated
later among the equal starts (the second one, since Python sorted is stable
over dict insertion order) silently replaces the earlier one via the
`data.loc[start] = ...` assignment. -/
theorem C10_theorem (pre post : List Entry) (s e1 e2 : Int) (T1 T2 : ElementType)
    (hks : ∀ q ∈ pre ++ post, q.1.1 ≠ s)
    (hsome : ∀ q ∈ pre ++ post, q.2.isSome = true) :
    ∃ m, ChromosomeExplicit (pre ++ [((s, e1), some T1), ((s, e2), some T2)] ++ post)
        = Except.ok m ∧ keyRows s m.data = [mkRow s T2 s e2] := by
  set entries := pre ++ [((s, e1), some T1), ((s, e2), some T2)] ++ post with hE
  have h1 : entries.isEmpty = false := by
    simp [hE]
  have h2 : entries.any (fun q => q.2.isNone) = false := by
    rw [List.any_eq_false]
    intro q hq
    rw [hE] at hq
    rcases List.mem_append.mp hq with hq1 | hqpost
    · rcases List.mem_append.mp hq1 with hqpre | hqm
      · have := hsome q (List.mem_append_left post hqpre)
        simp only [Option.isNone]
        cases hq2 : q.2
        · rw [hq2] at this; simp at this
        · simp
      · simp only [List.mem_cons, List.mem_singleton] at hqm
        rcases hqm with rfl | hqm
        · simp
        · rcases hqm with rfl | hqm
          · simp
          · simp at hqm
    · have := hsome q (List.mem_append_right pre hqpost)
      simp only [Option.isNone]
      cases hq2 : q.2
      · rw [hq2] at this; simp at this
      · simp
  refine ⟨_, ChromosomeExplicit_ok entries h1 h2, ?_⟩
  show keyRows s (foldData [] (sortByStart entries)) = [mkRow s T2 s e2]
  rw [foldData_keyRows s (sortByStart entries) [] (by simp [keysNodup])]
  rw [filter_sortByStart (fun e => e.1.1 == s && e.2.isSome) s
    (fun x hx => by
      simp only [Bool.and_eq_true, beq_iff_eq] at hx
      exact hx.1) entries]
  have hfilter : entries.filter (fun e => e.1.1 == s && e.2.isSome)
      = [((s, e1), some T1), ((s, e2), some T2)] := by
    rw [hE, List.filter_append, List.filter_append]
    have hpre : pre.filter (fun e => e.1.1 == s && e.2.isSome) = [] := by
      rw [List.filter_eq_nil_iff]
      intro q hq
      simp only [Bool.and_eq_true, beq_iff_eq, not_and]
      intro hqs
      exact absurd hqs (hks q (List.mem_append_left post hq))
    have hpost : post.filter (fun e => e.1.1 == s && e.2.isSome) = [] := by
      rw [List.filter_eq_nil_iff]
      intro q hq
      simp only [Bool.and_eq_true, beq_iff_eq, not_and]
      intro hqs
      exact absurd hqs (hks q (List.mem_append_right pre hq))
    rw [hpre, hpost]
    simp
  rw [hfilter]
  rw [List.getLast?_cons_cons]
  rfl

/-- C10 witness: two concrete entries with start 0; the later entry (end 20)
replaces the earlier one (end 10). -/
theorem C10_witness :
    ∃ m, ChromosomeExplicit
        [ ((0, 10), some { uid := 60, name := "gA", altname := "x"
                         , mlist := [], is_coding := false })
        , ((0, 20), some { uid := 61, name := "gB", altname := "y"
                         , mlist := [], is_coding := false }) ]
      = Except.ok m ∧
      keyRows 0 m.data = [mkRow 0
        { uid := 61, name := "gB", altname := "y", mlist := [], is_coding := false } 0 20] :=
  C10_theorem [] [] 0 10 20
    { uid := 60, name := "gA", altname := "x", mlist := [], is_coding := false }
    { uid := 61, name := "gB", altname := "y", mlist := [], is_coding := false }
    (fun q hq => by simp at hq)
    (fun q hq => by simp at hq)

/-! ## Invariant lemmas for the random construction strategy -/

theorem DataInv_locSet (gs idx idx2 : Int) (data : List Row) (row : Row)
    (hinv : DataInv gs idx data)
    (hkey : row.key = idx) (hstart : row.start = idx + 1)
    (hstop1 : row.stop ≤ idx2) (hstop2 : row.stop ≤ gs) (hlt : idx < idx2) :
    locSet data row = data ++ [row] ∧ DataInv gs idx2 (data ++ [row]) := by
  obtain ⟨hpw, hall⟩ := hinv
  have hfresh : ∀ r ∈ data, r.key ≠ row.key := by
    intro r hr
    have := (hall r hr).1
    rw [hkey]
    exact ne_of_lt this
  refine ⟨locSet_of_fresh data row hfresh, ?_, ?_⟩
  · rw [List.pairwise_append]
    refine ⟨hpw, List.pairwise_singleton _ _, ?_⟩
    intro a ha b hb
    simp only [List.mem_singleton] at hb
    subst hb
    obtain ⟨hk, hs, _⟩ := hall a ha
    refine ⟨by omega, by omega⟩
  · intro r hr
    rcases List.mem_append.mp hr with hcase | hcase
    · obtain ⟨hk, hs, hg⟩ := hall r hcase
      exact ⟨by omega, by omega, hg⟩
    · simp only [List.mem_singleton] at hcase
      subst hcase
      exact ⟨by omega, hstop1, hstop2⟩

theorem rejectFrom_floorOk (cdsSpan : Int) (cand : Nat → List Int) :
    ∀ (t fuel : Nat) (spans : List Int), rejectFrom cdsSpan cand t fuel = some spans →
      floorOk spans = true := by
  intro t fuel
  induction fuel generalizing t with
  | zero => intro spans h; simp [rejectFrom] at h
  | succ n ih =>
    intro spans h
    unfold rejectFrom at h
    by_cases hf : floorOk (fixLast cdsSpan (cand t)) = true
    · rw [if_pos hf] at h
      cases h
      exact hf
    · rw [if_neg hf] at h
      exact ih (t + 1) spans h

theorem rejectFrom_found (cdsSpan : Int) (cand : Nat → List Int) :
    ∀ (t fuel : Nat) (spans : List Int), rejectFrom cdsSpan cand t fuel = some spans →
      ∃ u, t ≤ u ∧ spans = fixLast cdsSpan (cand u) ∧
        ∀ v, t ≤ v → v < u → floorOk (fixLast cdsSpan (cand v)) = false := by
  intro t fuel
  induction fuel generalizing t with
  | zero => intro spans h; simp [rejectFrom] at h
  | succ n ih =>
    intro spans h
    unfold rejectFrom at h
    by_cases hf : floorOk (fixLast cdsSpan (cand t)) = true
    · rw [if_pos hf] at h
      cases h
      exact ⟨t, le_refl t, rfl, fun v hv1 hv2 => absurd hv1 (by omega)⟩
    · rw [if_neg hf] at h
      obtain ⟨u, hu1, hu2, hu3⟩ := ih (t + 1) spans h
      refine ⟨u, by omega, hu2, ?_⟩
      intro v hv1 hv2
      by_cases hvt : v = t
      · subst hvt
        simpa using hf
      · exact hu3 v (by omega) hv2

theorem get_cds_spans_nonneg (rng : Rng) (r fuel : Nat) (spans : List Int)
    (h : ChromosomeRandom.get_cds_spans rng r fuel = some spans) :
    ∀ x ∈ spans, 0 ≤ x := by
  unfold ChromosomeRandom.get_cds_spans at h
  by_cases hn : rng.nIntronsDraw r ≠ 0
  · rw [if_pos hn] at h
    have hok := rejectFrom_floorOk _ _ 0 fuel spans h
    intro x hx
    unfold floorOk at hok
    rw [List.all_eq_true] at hok
    have := hok x hx
    simp only [decide_eq_true_eq] at this
    omega
  · rw [if_neg hn] at h
    cases h
    intro x hx
    simp only [List.mem_singleton] at hx
    subst hx
    exact Int.natCast_nonneg _

theorem placeCds_inv (st : ChromosomeRandom) (rng : Rng) (r : Nat) :
    ∀ (spans : List Int) (enum : Nat) (idx : Int) (data : List Row),
      DataInv st.genome_size idx data →
      (∀ x ∈ spans, 0 ≤ x) →
      idx + spans.sum + (spans.length : Int) ≤ st.genome_size →
      DataInv st.genome_size (placeCds st rng r enum idx spans data).1
          (placeCds st rng r enum idx spans data).2 ∧
        (placeCds st rng r enum idx spans data).1
          = idx + spans.sum + (spans.length : Int) := by
  intro spans
  induction spans with
  | nil =>
    intro enum idx data hinv _ _
    exact ⟨hinv, by simp [placeCds]⟩
  | cons span rest ih =>
    intro enum idx data hinv hnn hbound
    have hspan : 0 ≤ span := hnn span (List.mem_cons_self span rest)
    have hrest : ∀ x ∈ rest, 0 ≤ x := fun x hx => hnn x (List.mem_cons_of_mem span hx)
    have hrsum : 0 ≤ rest.sum := List.sum_nonneg hrest
    rw [List.sum_cons, List.length_cons] at hbound
    push_cast at hbound
    have hlocset := DataInv_locSet st.genome_size idx (idx + span + 1) data
      (mkRow idx (if enum % 2 = 0 then st.exon.pick (rng.pickDraw r enum)
                  else st.intron.pick (rng.pickDraw r enum)) (idx + 1) (idx + span + 1))
      hinv rfl rfl (by simp only [mkRow]; omega) (by simp only [mkRow]; omega) (by omega)
    unfold placeCds
    simp only [] 
    rw [hlocset.1]
    have hres := ih (enum + 1) (idx + span + 1) _ hlocset.2 hrest (by omega)
    refine ⟨hres.1, ?_⟩
    rw [hres.2]
    rw [List.sum_cons, List.length_cons]
    push_cast
    ring

theorem chain'_key_of_pairwise (l : List Row)
    (h : l.Pairwise (fun a b => a.key < b.key ∧ a.stop < b.start)) :
    l.Chain' (fun a b => a.key < b.key) := by
  exact List.Pairwise.chain' (h.imp (fun hab => hab.1))

theorem sortByKey_of_chain :
    ∀ l : List Row, l.Chain' (fun a b => a.key < b.key) → sortByKey l = l
  | [], _ => rfl
  | a :: l, h => by
    have hs : sortByKey (a :: l) = insertByKey a (sortByKey l) := rfl
    rw [hs, sortByKey_of_chain l h.tail]
    cases l with
    | nil => rfl
    | cons b xs =>
      unfold insertByKey
      rw [if_pos (le_of_lt (List.chain'_cons.mp h).1)]

theorem runLoop_inv (st : ChromosomeRandom) (rng : Rng) (innerFuel : Nat) :
    ∀ (fuel r : Nat) (idx : Int) (data : List Row) (out : List Row),
      DataInv st.genome_size idx data →
      ChromosomeRandom.runLoop st rng innerFuel fuel r idx data = some out →
      out.Pairwise (fun a b => a.key < b.key ∧ a.stop < b.start) ∧
        ∀ row ∈ out, row.stop ≤ st.genome_size := by
  intro fuel
  induction fuel with
  | zero =>
    intro r idx data out _ h
    simp [ChromosomeRandom.runLoop] at h
  | succ n ih =>
    intro r idx data out hinv h
    unfold ChromosomeRandom.runLoop at h
    simp only [] at h
    have hspan : (0 : Int) ≤ (rng.noncdsDraw r : Int) := Int.natCast_nonneg _
    have hlocset := DataInv_locSet st.genome_size idx (idx + (rng.noncdsDraw r : Int) + 1) data
      (mkRow idx st.noncds (idx + 1)
        (min (idx + 1 + (rng.noncdsDraw r : Int)) st.genome_size))
      hinv rfl rfl (by simp [mkRow]; omega) (by simp [mkRow]) (by omega)
    cases hg : ChromosomeRandom.get_cds_spans rng r innerFuel with
    | none =>
      rw [hg] at h
      simp at h
    | some spans =>
      rw [hg] at h
      simp only [] at h
      have hnn := get_cds_spans_nonneg rng r innerFuel spans hg
      by_cases hbr : st.genome_size
          < idx + (rng.noncdsDraw r : Int) + 1 + spans.sum + (spans.length : Int)
      · rw [if_pos hbr] at h
        have hout : out = sortByKey (locSet data
            (mkRow idx st.noncds (idx + 1)
              (min (idx + 1 + (rng.noncdsDraw r : Int)) st.genome_size))) := by
          cases h
          rfl
        rw [hout, hlocset.1, sortByKey_of_chain _ (chain'_key_of_pairwise _ hlocset.2.1)]
        exact ⟨hlocset.2.1, fun row hrow => (hlocset.2.2 row hrow).2.2⟩
      · rw [if_neg hbr] at h
        rw [hlocset.1] at h
        have hplace := placeCds_inv st rng r spans 0
          (idx + (rng.noncdsDraw r : Int) + 1)
          (data ++ [mkRow idx st.noncds (idx + 1)
            (min (idx + 1 + (rng.noncdsDraw r : Int)) st.genome_size)])
          hlocset.2 hnn (by omega)
        exact ih (r + 1) _ _ out hplace.1 h

/-! ## C1 -/

/-- C1 counterexample: the explicit construction strategy accepts a mapping
with two overlapping intervals ([0, 10] and [5, 20]) instead of failing — its
only validation is the two type assertions, so both overlapping rows are
retained in the model. -/
theorem C1_counterexample :
    ∃ m, ChromosomeExplicit
        [ ((0, 10), some { uid := 70, name := "gC", altname := "c"
                         , mlist := [], is_coding := true })
        , ((5, 20), some { uid := 70, name := "gC", altname := "c"
                         , mlist := [], is_coding := true }) ]
      = Except.ok m ∧
      m.data.length = 2 ∧ ¬ m.data.Pairwise NoOverlap := by
  refine ⟨_, rfl, ?_, ?_⟩ <;> decide

/-- C1 (amended): every model produced by the random generative strategy
satisfies the interval invariant — pairwise non-overlap, and every interval
end at most the stored `genome_size` (which `__init__` sets to the requested
genome length minus one) — and so does the fixed default chromosome; the
explicit strategy, however, does not check overlap. -/
theorem C1_theorem (st : ChromosomeRandom) (rng : Rng) (innerFuel fuel : Nat)
    (out : List Row) (h : ChromosomeRandom.run st rng innerFuel fuel = some out) :
    (out.Pairwise NoOverlap ∧ ∀ row ∈ out, row.stop ≤ st.genome_size) ∧
      (defaultChromosomeData.Pairwise NoOverlap ∧
        ∀ row ∈ defaultChromosomeData, row.stop ≤ 10001 - 1) := by
  have hinv0 : DataInv st.genome_size 0 [] := ⟨List.Pairwise.nil, by simp⟩
  have hmain := runLoop_inv st rng innerFuel fuel 0 0 [] out hinv0 h
  refine ⟨⟨hmain.1.imp ?_, hmain.2⟩, by decide, by decide⟩
  intro a b hab
  exact Or.inl hab.2

/-- C1 witness: a concrete three-round random run over genome length 5. -/
theorem C1_witness :
    (([ mkRow 0 NONCDS 1 2, mkRow 2 EXON 3 3, mkRow 3 NONCDS 4 4 ].Pairwise NoOverlap ∧
      ∀ row ∈ [ mkRow 0 NONCDS 1 2, mkRow 2 EXON 3 3, mkRow 3 NONCDS 4 4 ],
        row.stop ≤ (ChromosomeRandom.init 5 (Pool.one INTRON) (Pool.one EXON) NONCDS
          none none none).genome_size) ∧
      (defaultChromosomeData.Pairwise NoOverlap ∧
        ∀ row ∈ defaultChromosomeData, row.stop ≤ 10001 - 1)) :=
  C1_theorem (ChromosomeRandom.init 5 (Pool.one INTRON) (Pool.one EXON) NONCDS none none none)
    ⟨fun _ => 1, fun _ => 0, fun _ => 0, fun _ _ => [], fun _ _ => 0⟩ 1 10
    [ mkRow 0 NONCDS 1 2, mkRow 2 EXON 3 3, mkRow 3 NONCDS 4 4 ] rfl

/-! ## C4 -/

/-- C4: whenever `get_cds_spans` returns with a drawn intron count greater
than 0, every returned exon/intron segment length is strictly greater than 3,
and the returned partition is exactly the first rejection-sampling candidate
satisfying that floor (all earlier candidates failed the test). -/
theorem C4_theorem (rng : Rng) (r fuel : Nat) (spans : List Int)
    (h : ChromosomeRandom.get_cds_spans rng r fuel = some spans)
    (hn : rng.nIntronsDraw r ≠ 0) :
    (∀ x ∈ spans, 3 < x) ∧
      ∃ u, spans = fixLast ((rng.cdsDraw r : Int)) (rng.candDraw r u) ∧
        ∀ v < u, floorOk (fixLast ((rng.cdsDraw r : Int)) (rng.candDraw r v)) = false := by
  unfold ChromosomeRandom.get_cds_spans at h
  rw [if_pos hn] at h
  have hok := rejectFrom_floorOk _ _ 0 fuel spans h
  obtain ⟨u, _, hu2, hu3⟩ := rejectFrom_found _ _ 0 fuel spans h
  constructor
  · intro x hx
    unfold floorOk at hok
    rw [List.all_eq_true] at hok
    have := hok x hx
    simpa using this
  · exact ⟨u, hu2, fun v hv => hu3 v (Nat.zero_le v) hv⟩

/-- C4 witness: one accepted candidate of a single segment of length 10 with
intron count 1. -/
theorem C4_witness :
    (∀ x ∈ ([10] : List Int), 3 < x) ∧
      ∃ u : Nat, ([10] : List Int) = fixLast 10 [10] ∧
        ∀ v < u, floorOk (fixLast 10 [10]) = false :=
  C4_theorem ⟨fun _ => 0, fun _ => 10, fun _ => 1, fun _ _ => [10], fun _ _ => 0⟩ 0 1
    [10] rfl (by decide)

/-! ## C7 -/

/-- C7 counterexample: a non-positive noncds scale (0, paired with a positive
intron scale so that no other sampling line raises) does not cause any
configuration error: `ChromosomeRandom.__init__` stores it unvalidated and the
run — taken with its scale-dependent exception paths modelled explicitly —
completes, emitting intervals, with no error at any point before or during
sampling (numpy's exponential at scale 0 deterministically returns 0). -/
theorem C7_counterexample :
    (ChromosomeRandom.init 3 (Pool.one INTRON) (Pool.one EXON) NONCDS
        (some 1) (some 1) (some 0)).noncds_scale = some 0 ∧
    ChromosomeRandom.run_full
        (ChromosomeRandom.init 3 (Pool.one INTRON) (Pool.one EXON) NONCDS
          (some 1) (some 1) (some 0))
        ⟨fun _ => 0, fun _ => 0, fun _ => 0, fun _ _ => [], fun _ _ => 0⟩ 1 10
      = some (Except.ok [ mkRow 0 NONCDS 1 1, mkRow 1 EXON 2 2, mkRow 2 NONCDS 3 2 ]) :=
  ⟨rfl, rfl⟩

/-- C7 (amended): no validation of the scale parameters exists before
sampling: the constructor stores any intron/cds/noncds scale values —
non-positive ones included — unchanged, only setting `genome_size` to the
argument minus one. Scale errors, when they occur at all, are raised inside
the sampling calls during the run (a negative noncds scale raises ValueError
at the very first exponential draw of the first loop round), never fail-fast
at configuration time; and a zero noncds scale beside a positive intron scale
raises nothing: the run completes with zero-length waiting times. -/
theorem C7_theorem (g : Int) (iS cS nS : Option Int) (sc : Int) (hsc : sc < 0)
    (rng : Rng) (innerFuel fuel : Nat) :
    (ChromosomeRandom.init g (Pool.one INTRON) (Pool.one EXON) NONCDS
        iS cS nS).intron_scale = iS ∧
    (ChromosomeRandom.init g (Pool.one INTRON) (Pool.one EXON) NONCDS
        iS cS nS).cds_scale = cS ∧
    (ChromosomeRandom.init g (Pool.one INTRON) (Pool.one EXON) NONCDS
        iS cS nS).noncds_scale = nS ∧
    (ChromosomeRandom.init g (Pool.one INTRON) (Pool.one EXON) NONCDS
        iS cS nS).genome_size = g - 1 ∧
    ChromosomeRandom.run_full
        (ChromosomeRandom.init g (Pool.one INTRON) (Pool.one EXON) NONCDS iS cS (some sc))
        rng innerFuel (fuel + 1)
      = some (Except.error "ValueError: scale < 0") ∧
    ChromosomeRandom.run_full
        (ChromosomeRandom.init 4 (Pool.one INTRON) (Pool.one EXON) NONCDS
          (some 2) (some 1) (some 0))
        ⟨fun _ => 0, fun _ => 0, fun _ => 0, fun _ _ => [], fun _ _ => 0⟩ 1 10
      = some (Except.ok [ mkRow 0 NONCDS 1 1, mkRow 1 EXON 2 2, mkRow 2 NONCDS 3 3 ]) := by
  refine ⟨rfl, rfl, rfl, rfl, ?_, rfl⟩
  show ChromosomeRandom.runLoop_full _ rng innerFuel (fuel + 1) 0 0 [] = _
  unfold ChromosomeRandom.runLoop_full ChromosomeRandom.get_noncds_span
  simp [ChromosomeRandom.init, hsc]

/-- C7 witness: the amended statement with genome length 5, an unstored-check
scale assignment including a negative stored noncds scale, and the negative
scale -1 erroring at the first draw. -/
theorem C7_witness :
    (ChromosomeRandom.init 5 (Pool.one INTRON) (Pool.one EXON) NONCDS
        none none (some (-7))).intron_scale = none ∧
    (ChromosomeRandom.init 5 (Pool.one INTRON) (Pool.one EXON) NONCDS
        none none (some (-7))).cds_scale = none ∧
    (ChromosomeRandom.init 5 (Pool.one INTRON) (Pool.one EXON) NONCDS
        none none (some (-7))).noncds_scale = some (-7) ∧
    (ChromosomeRandom.init 5 (Pool.one INTRON) (Pool.one EXON) NONCDS
        none none (some (-7))).genome_size = 5 - 1 ∧
    ChromosomeRandom.run_full
        (ChromosomeRandom.init 5 (Pool.one INTRON) (Pool.one EXON) NONCDS
          none none (some (-1)))
        ⟨fun _ => 0, fun _ => 0, fun _ => 0, fun _ _ => [], fun _ _ => 0⟩ 1 1
      = some (Except.error "ValueError: scale < 0") ∧
    ChromosomeRandom.run_full
        (ChromosomeRandom.init 4 (Pool.one INTRON) (Pool.one EXON) NONCDS
          (some 2) (some 1) (some 0))
        ⟨fun _ => 0, fun _ => 0, fun _ => 0, fun _ _ => [], fun _ _ => 0⟩ 1 10
      = some (Except.ok [ mkRow 0 NONCDS 1 1, mkRow 1 EXON 2 2, mkRow 2 NONCDS 3 3 ]) :=
  C7_theorem 5 none none (some (-7)) (-1) (by norm_num)
    ⟨fun _ => 0, fun _ => 0, fun _ => 0, fun _ _ => [], fun _ _ => 0⟩ 1 0
